import Mathlib

/-!
Shallow embedding of libbyztime (akamai-contrib/libbyztime) in Lean 4.

The C sources embedded here are:
  * byztime_stamp.c    - (seconds, nanoseconds) fixed-point arithmetic on int64
  * byztime_provider.c - byztime_open_rw initialization, byztime_set_offset
  * byztime_consumer.c - byztime_open_ro, get_and_validate_entry, byztime_slew,
                         byztime_get_local_time_and_offset and its wrappers
  * byztime_internal.h / byztime.h - data layout and constants

Machine integers (int64_t) are modelled as Lean Int with explicit two's
complement wrap-around (wrap64) at exactly the places where the C code uses
the checked __builtin_{add,sub,mul}_overflow intrinsics, which store the
wrapped result and report whether it differs from the exact one.  C's `/`
and `%` on int64 truncate toward zero, so they are modelled with Int.tdiv
and Int.tmod.  Unchecked C arithmetic whose operands are bounded well inside
int64 by construction is modelled as exact Int arithmetic.  Fallible
functions return an explicit error sum type mirroring the errno values the
C code assigns.
-/

deriving instance DecidableEq for Except

namespace Byztime

/-- One billion, `static const int billion` from byztime_internal.h. -/
def billion : Int := 1000000000

/-- INT64_MAX. -/
def i64max : Int := 9223372036854775807

/-- INT64_MIN. -/
def i64min : Int := -9223372036854775808

/-- Two's complement wrap-around into the int64 range. -/
def wrap64 (x : Int) : Int :=
  (x + 9223372036854775808) % 18446744073709551616 - 9223372036854775808

/-- Model of `__builtin_add_overflow(a, b, out)`: the wrapped sum together
with the flag telling whether it differs from the exact sum. -/
def addOv (a b : Int) : Int × Bool :=
  (wrap64 (a + b), decide (wrap64 (a + b) ≠ a + b))

/-- Model of `__builtin_sub_overflow(a, b, out)`. -/
def subOv (a b : Int) : Int × Bool :=
  (wrap64 (a - b), decide (wrap64 (a - b) ≠ a - b))

/-- Model of `__builtin_mul_overflow(a, b, out)`. -/
def mulOv (a b : Int) : Int × Bool :=
  (wrap64 (a * b), decide (wrap64 (a * b) ≠ a * b))

/-- `byztime_stamp`: a (seconds, nanoseconds) pair of int64 fields. -/
structure Stamp where
  seconds : Int
  nanoseconds : Int
deriving DecidableEq, Repr

/-- A stamp whose two fields fit in int64, as every `byztime_stamp` held in
C memory does by its type. -/
def Stamp.repr64 (s : Stamp) : Prop :=
  i64min ≤ s.seconds ∧ s.seconds ≤ i64max ∧
  i64min ≤ s.nanoseconds ∧ s.nanoseconds ≤ i64max

instance (s : Stamp) : Decidable s.repr64 := by
  unfold Stamp.repr64; infer_instance

/-- `byztime_stamp_normalize` (byztime_stamp.c).  Returns the updated stamp
and the overflow flag (`true` iff the C function returns -1 with
errno = EOVERFLOW). -/
def byztime_stamp_normalize (stamp : Stamp) : Stamp × Bool :=
  if 0 ≤ stamp.nanoseconds ∧ stamp.nanoseconds < billion then
    (stamp, false)
  else
    let nsec_div := stamp.nanoseconds.tdiv billion
    let nsec_mod := stamp.nanoseconds.tmod billion
    let s1 := addOv stamp.seconds nsec_div
    if nsec_mod < 0 then
      let s2 := subOv s1.1 1
      (⟨s2.1, nsec_mod + billion⟩, s1.2 || s2.2)
    else
      (⟨s1.1, nsec_mod⟩, s1.2)

/-- `byztime_stamp_add` (byztime_stamp.c). -/
def byztime_stamp_add (stamp1 stamp2 : Stamp) : Stamp × Bool :=
  let n1 := byztime_stamp_normalize stamp1
  let n2 := byztime_stamp_normalize stamp2
  let s := addOv n1.1.seconds n2.1.seconds
  let n3 := byztime_stamp_normalize ⟨s.1, n1.1.nanoseconds + n2.1.nanoseconds⟩
  (n3.1, n1.2 || n2.2 || s.2 || n3.2)

/-- `byztime_stamp_sub` (byztime_stamp.c). -/
def byztime_stamp_sub (stamp1 stamp2 : Stamp) : Stamp × Bool :=
  let n1 := byztime_stamp_normalize stamp1
  let n2 := byztime_stamp_normalize stamp2
  let s := subOv n1.1.seconds n2.1.seconds
  let n3 := byztime_stamp_normalize ⟨s.1, n1.1.nanoseconds - n2.1.nanoseconds⟩
  (n3.1, n1.2 || n2.2 || s.2 || n3.2)

/-- `byztime_stamp_cmp` (byztime_stamp.c). -/
def byztime_stamp_cmp (stamp1 stamp2 : Stamp) : Int :=
  let s1 := (byztime_stamp_normalize stamp1).1
  let s2 := (byztime_stamp_normalize stamp2).1
  if s1.seconds < s2.seconds then -1
  else if s1.seconds > s2.seconds then 1
  else if s1.nanoseconds < s2.nanoseconds then -1
  else if s1.nanoseconds > s2.nanoseconds then 1
  else 0

/-- The half-to-even rounding adjustment shared by the two scaling
routines: `residue` is the attosecond remainder, `nsec` the nanoseconds
value being adjusted (`prod->nanoseconds & 1` is odd-ness, which for int64
two's complement equals `nsec % 2 = 1` with Lean's nonnegative `%`). -/
def roundAdjust (residue nsec : Int) : Int :=
  if residue > 500000000 ∨ (residue = 500000000 ∧ nsec % 2 = 1) then
    nsec + 1
  else if residue < -500000000 ∨ (residue = -500000000 ∧ nsec % 2 = 1) then
    nsec - 1
  else
    nsec

/-- `byztime_stamp_downscale` (byztime_stamp.c), the fast path of
`byztime_stamp_scale` for `0 <= ppb <= billion`.  The final
`byztime_stamp_normalize(prod)` in the C code is asserted never to fail,
and its overflow flag is discarded (`assert(false)`), matching the C
control flow where only the initial normalization's flag reaches the
caller. -/
def byztime_stamp_downscale (stamp : Stamp) (ppb : Int) : Stamp × Bool :=
  let n := byztime_stamp_normalize stamp
  let s := n.1
  let gigaseconds_in := s.seconds.tdiv billion
  let seconds_in := s.seconds.tmod billion
  let nanoseconds_in := s.nanoseconds
  let nanoparts := ppb
  let seconds_out := gigaseconds_in * nanoparts
  let nanoseconds_out := seconds_in * nanoparts
  let attoseconds_out := nanoseconds_in * nanoparts
  let prod_nsec := nanoseconds_out + attoseconds_out.tdiv billion
  let residue := attoseconds_out.tmod billion
  let fin := byztime_stamp_normalize ⟨seconds_out, roundAdjust residue prod_nsec⟩
  (fin.1, n.2)

/-- `byztime_stamp_scale` (byztime_stamp.c): schoolbook multiplication over
base one billion, with the fast downscale path for `0 <= ppb <= billion`. -/
def byztime_stamp_scale (stamp : Stamp) (ppb : Int) : Stamp × Bool :=
  if 0 ≤ ppb ∧ ppb ≤ billion then
    byztime_stamp_downscale stamp ppb
  else
    let n := byztime_stamp_normalize stamp
    let s := n.1
    let gigaseconds_in := s.seconds.tdiv billion
    let seconds_in := s.seconds.tmod billion
    let nanoseconds_in := s.nanoseconds
    let parts := ppb.tdiv billion
    let nanoparts := ppb.tmod billion
    let g := mulOv gigaseconds_in parts
    let seconds_out_1 := seconds_in * parts
    let seconds_out_2 := gigaseconds_in * nanoparts
    let nanoseconds_out_1 := seconds_in * nanoparts
    let nanoseconds_out_2 := nanoseconds_in * parts
    let attoseconds_out := nanoseconds_in * nanoparts
    let m := mulOv g.1 billion
    let a1 := addOv m.1 seconds_out_1
    let a2 := addOv a1.1 seconds_out_2
    let n1 := byztime_stamp_normalize ⟨a2.1, nanoseconds_out_2⟩
    let pnsec := n1.1.nanoseconds + attoseconds_out.tdiv billion + nanoseconds_out_1
    let residue := attoseconds_out.tmod billion
    let n2 := byztime_stamp_normalize ⟨n1.1.seconds, roundAdjust residue pnsec⟩
    (n2.1, n.2 || g.2 || m.2 || a1.2 || a2.2 || n1.2 || n2.2)

/-! ## Shared region and context model

`timedata` (byztime_internal.h): magic, atomic writer index `i`, era,
`real_offset`, a writer mutex (irrelevant to the sequential semantics
modelled here) and a ring of `NUM_ENTRIES = 62` entries.  The magic and era
codecs (`load_magic`/`store_magic`, `load_era`/`store_era`) are mutually
inverse little-endian byte/word packings, so the region is modelled at the
byte level: `magic` and `era` are byte lists and the codecs are the
identity on them. -/

/-- `NUM_ENTRIES` from byztime_internal.h. -/
def NUM_ENTRIES : Int := 62

/-- `expected_magic` from byztime_internal.h:
`'B','Y','Z','T','I','M','E',0x00,0xff,0xff,0xff,0xff`. -/
def expected_magic : List Nat := [66, 89, 90, 84, 73, 77, 69, 0, 255, 255, 255, 255]

/-- `timedata_entry` (byztime_internal.h): offset, error, as_of. -/
structure TimedataEntry where
  offset : Stamp
  error : Stamp
  as_of : Stamp
deriving DecidableEq, Repr

/-- The all-zero entry, used as the (never relevant) list-access default. -/
def defaultEntry : TimedataEntry := ⟨⟨0, 0⟩, ⟨0, 0⟩, ⟨0, 0⟩⟩

/-- The `timedata` region. -/
structure Timedata where
  magic : List Nat
  i : Int
  era : List Nat
  real_offset : Stamp
  entries : List TimedataEntry
deriving DecidableEq, Repr

/-- Error kinds, mirroring the errno values the C code assigns:
EPROTO, ECONNREFUSED, EOVERFLOW, ERANGE, and a clock_gettime failure. -/
inductive Err where
  | ProtocolError
  | EraMismatch
  | Overflow
  | OutOfRange
  | ClockFailure
deriving DecidableEq, Repr

/-- Consumer/provider context `byztime_ctx_s` (byztime_internal.h), minus
the file descriptors and mapping pointer, which have no sequential
semantics. -/
structure Ctx where
  drift_ppb : Int
  min_rate_ppb : Int
  max_rate_ppb : Int
  prev_local_time : Stamp
  prev_offset : Stamp
  slew_mode : Bool
  slew_have_prev : Bool
deriving DecidableEq, Repr

/-- `byztime_open_ro` (byztime_consumer.c), the region-validation part:
check the stored magic, then check the stored era against the current
`clock_era()`; on success the context starts with the default drift and
step mode.  The C code leaves `min_rate_ppb`, `max_rate_ppb`,
`prev_local_time` and `prev_offset` uninitialized at open; no code path
reads them before `byztime_slew` assigns them, and the model fixes them to
zero. -/
def byztime_open_ro (td : Timedata) (current_era : List Nat) : Except Err Ctx :=
  if td.magic ≠ expected_magic then
    .error .ProtocolError
  else if td.era ≠ current_era then
    .error .EraMismatch
  else
    .ok { drift_ppb := 250000, min_rate_ppb := 0, max_rate_ppb := 0,
          prev_local_time := ⟨0, 0⟩, prev_offset := ⟨0, 0⟩,
          slew_mode := false, slew_have_prev := false }

/-- `get_and_validate_entry` (byztime_consumer.c): load the index, bounds
check it, copy the selected entry, validate its three nanoseconds fields.
The page-fault (SIGBUS) recovery paths have no sequential semantics and
are absent from the model. -/
def get_and_validate_entry (td : Timedata) : Except Err TimedataEntry :=
  let i := td.i
  if i < 0 ∨ NUM_ENTRIES ≤ i then
    .error .ProtocolError
  else
    let entry := td.entries.getD i.toNat defaultEntry
    if entry.offset.nanoseconds < 0 ∨ billion ≤ entry.offset.nanoseconds ∨
        entry.error.nanoseconds < 0 ∨ billion ≤ entry.error.nanoseconds ∨
        entry.as_of.nanoseconds < 0 ∨ billion ≤ entry.as_of.nanoseconds then
      .error .ProtocolError
    else
      .ok entry

/-- The context-state assignment block of `byztime_slew`
(byztime_consumer.c lines setting slew_mode, slew_have_prev and the two
rates). -/
def enterSlew (ctx : Ctx) (min_rate_ppb max_rate_ppb : Int) : Ctx :=
  { ctx with slew_mode := true, slew_have_prev := false,
             min_rate_ppb := min_rate_ppb, max_rate_ppb := max_rate_ppb }

/-- `byztime_slew` (byztime_consumer.c). -/
def byztime_slew (ctx : Ctx) (td : Timedata) (min_rate_ppb max_rate_ppb : Int)
    (maxerror : Option Stamp) : Ctx × Except Err Unit :=
  match get_and_validate_entry td with
  | .error e => (ctx, .error e)
  | .ok entry =>
    let rejected : Bool :=
      match maxerror with
      | some me => decide (byztime_stamp_cmp entry.error me > 0)
      | none => false
    if rejected then
      (ctx, .error .OutOfRange)
    else
      (enterSlew ctx min_rate_ppb max_rate_ppb, .ok ())

/-- `byztime_step` (byztime_consumer.c). -/
def byztime_step (ctx : Ctx) : Ctx :=
  { ctx with slew_mode := false }

/-- Result record of `byztime_get_local_time_and_offset`. -/
structure GetResult where
  local_time : Stamp
  min : Stamp
  est : Stamp
  max : Stamp
deriving DecidableEq, Repr

/-- The drift-based error growth block of
`byztime_get_local_time_and_offset` (byztime_consumer.c):
`age = local - as_of`, `scaled_age = scale(age, 2*drift)`,
`error = entry.error + scaled_age`, `min = offset - error`,
`max = offset + error`, failing with Overflow at the first failing
stamp operation. -/
def minMaxFromEntry (drift_ppb_x2 : Int) (entry : TimedataEntry)
    (my_local_time : Stamp) : Except Err (Stamp × Stamp) :=
  let age := byztime_stamp_sub my_local_time entry.as_of
  if age.2 then .error .Overflow else
  let scaled_age := byztime_stamp_scale age.1 drift_ppb_x2
  if scaled_age.2 then .error .Overflow else
  let error := byztime_stamp_add entry.error scaled_age.1
  if error.2 then .error .Overflow else
  let my_min := byztime_stamp_sub entry.offset error.1
  if my_min.2 then .error .Overflow else
  let my_max := byztime_stamp_add entry.offset error.1
  if my_max.2 then .error .Overflow else
  .ok (my_min.1, my_max.1)

/-- The `ctx->slew_have_prev` branch of
`byztime_get_local_time_and_offset` (byztime_consumer.c): compute the
elapsed local, offset-adjustment and global stamps since the previous
read, scale the global elapsed stamp by the two rates (the max one only
consulted when `max_rate_ppb < INT64_MAX`), and clamp the estimate by the
shortfall or excess. -/
def slewClampEst (ctx : Ctx) (entry : TimedataEntry) (my_local_time : Stamp) :
    Except Err Stamp :=
  let local_time_since_prev :=
    byztime_stamp_sub my_local_time ctx.prev_local_time
  let offset_adj_since_prev :=
    byztime_stamp_sub entry.offset ctx.prev_offset
  let global_time_since_prev :=
    byztime_stamp_add local_time_since_prev.1 offset_adj_since_prev.1
  let min_global_time_since_prev :=
    byztime_stamp_scale global_time_since_prev.1 ctx.min_rate_ppb
  let max_global_time_since_prev :=
    byztime_stamp_scale global_time_since_prev.1 ctx.max_rate_ppb
  if local_time_since_prev.2 || offset_adj_since_prev.2 ||
      global_time_since_prev.2 || min_global_time_since_prev.2 ||
      (decide (ctx.max_rate_ppb < i64max) && max_global_time_since_prev.2) then
    .error .Overflow
  else if byztime_stamp_cmp global_time_since_prev.1
      min_global_time_since_prev.1 < 0 then
    let shortfall := byztime_stamp_sub min_global_time_since_prev.1
      global_time_since_prev.1
    let my_est := byztime_stamp_add entry.offset shortfall.1
    if shortfall.2 || my_est.2 then .error .Overflow else .ok my_est.1
  else if ctx.max_rate_ppb < i64max ∧ byztime_stamp_cmp
      global_time_since_prev.1 max_global_time_since_prev.1 > 0 then
    let excess := byztime_stamp_sub global_time_since_prev.1
      max_global_time_since_prev.1
    let my_est := byztime_stamp_sub entry.offset excess.1
    if excess.2 || my_est.2 then .error .Overflow else .ok my_est.1
  else
    .ok entry.offset

/-- `byztime_get_local_time_and_offset` (byztime_consumer.c).  The host
clock reading `byztime_get_local_time` is supplied as `clock` (`none`
models a clock_gettime failure).  Returns the updated context and either
the four stamps or the error of the first failing step, in the C code's
evaluation order: the doubled drift overflow check, the entry read, the
clock read, the min/max computation, then the slew estimate (raw entry
offset in step mode or when no previous read is recorded), with the
`prev_*` fields committed exactly on the successful slew-mode exit. -/
def byztime_get_local_time_and_offset (ctx : Ctx) (td : Timedata)
    (clock : Option Stamp) : Ctx × Except Err GetResult :=
  let d := mulOv ctx.drift_ppb 2
  if d.2 then (ctx, .error .Overflow) else
  match get_and_validate_entry td with
  | .error e => (ctx, .error e)
  | .ok entry =>
    match clock with
    | none => (ctx, .error .ClockFailure)
    | some my_local_time =>
      match minMaxFromEntry d.1 entry my_local_time with
      | .error e => (ctx, .error e)
      | .ok mm =>
        if ctx.slew_mode then
          match (if ctx.slew_have_prev then
              slewClampEst ctx entry my_local_time
            else .ok entry.offset) with
          | .error e => (ctx, .error e)
          | .ok my_est =>
            ({ ctx with prev_local_time := my_local_time,
                        prev_offset := my_est, slew_have_prev := true },
             .ok ⟨my_local_time, mm.1, my_est, mm.2⟩)
        else
          (ctx, .ok ⟨my_local_time, mm.1, entry.offset, mm.2⟩)

/-- `byztime_get_offset` (byztime_consumer.c). -/
def byztime_get_offset (ctx : Ctx) (td : Timedata) (clock : Option Stamp) :
    Ctx × Except Err (Stamp × Stamp × Stamp) :=
  match byztime_get_local_time_and_offset ctx td clock with
  | (c, .error e) => (c, .error e)
  | (c, .ok r) => (c, .ok (r.min, r.est, r.max))

/-- `byztime_get_global_time` (byztime_consumer.c): get the offset triple,
then add the local time to each of min/est/max.  Note the context update
inside `byztime_get_local_time_and_offset` has happened even when one of
the three final additions overflows. -/
def byztime_get_global_time (ctx : Ctx) (td : Timedata) (clock : Option Stamp) :
    Ctx × Except Err (Stamp × Stamp × Stamp) :=
  match byztime_get_local_time_and_offset ctx td clock with
  | (c, .error e) => (c, .error e)
  | (c, .ok r) =>
    let mn := byztime_stamp_add r.min r.local_time
    let es := byztime_stamp_add r.est r.local_time
    let mx := byztime_stamp_add r.max r.local_time
    if mn.2 || es.2 || mx.2 then (c, .error .Overflow)
    else (c, .ok (mn.1, es.1, mx.1))

/-- `byztime_set_offset` (byztime_provider.c): build the entry (reading the
local clock when `as_of` is NULL), then publish it at slot `i + 1`
(wrapping `NUM_ENTRIES` to 0) and advance the index.  The mutex and the
atomic orderings have no sequential semantics. -/
def byztime_set_offset (td : Timedata) (offset error : Stamp)
    (as_of : Option Stamp) (clock : Option Stamp) : Except Err Timedata :=
  let as_of_v : Except Err Stamp :=
    match as_of with
    | none =>
      match clock with
      | none => .error .ClockFailure
      | some t => .ok t
    | some a => .ok a
  match as_of_v with
  | .error e => .error e
  | .ok a =>
    let entry : TimedataEntry := ⟨offset, error, a⟩
    let i0 := td.i + 1
    let i := if i0 = NUM_ENTRIES then 0 else i0
    .ok { td with entries := td.entries.set i.toNat entry, i := i }

/-- The writes `byztime_open_rw` performs on the region during first-time
initialization or reboot re-initialization, in program order. -/
inductive InitWrite where
  | writeRealOffset (s : Stamp)
  | writeEntry (idx : Int) (e : TimedataEntry)
  | writeIndex (i : Int)
  | writeEra (e : List Nat)
  | writeMagic (m : List Nat)
deriving DecidableEq, Repr

/-- The region-initialization part of `byztime_open_rw`
(byztime_provider.c): if the magic is absent or the index out of range,
first-time initialization (zero `real_offset`, entry 0 from
`real_time - local_time` with sentinel error `(INT64_MAX >> 1, 0)`, index
0, era, then magic last); else if the era is stale, reboot
re-initialization; else the region is untouched.  Returns the final region
together with the list of region writes in the order the C code performs
them.  The host clock readings are supplied as arguments (the C error
paths for clock failure are not claim-relevant and the readings are taken
as given). -/
def byztime_open_rw_region (td : Timedata) (current_era : List Nat)
    (local_time real_time : Stamp) : Except Err (Timedata × List InitWrite) :=
  if td.magic ≠ expected_magic ∨ td.i < 0 ∨ NUM_ENTRIES ≤ td.i then
    let td1 := { td with real_offset := (⟨0, 0⟩ : Stamp) }
    let off := byztime_stamp_sub real_time local_time
    if off.2 then .error .Overflow else
    let entry : TimedataEntry := ⟨off.1, ⟨i64max.tdiv 2, 0⟩, local_time⟩
    .ok ({ td1 with entries := td1.entries.set 0 entry, i := 0,
                    era := current_era, magic := expected_magic },
         [.writeRealOffset ⟨0, 0⟩, .writeEntry 0 entry, .writeIndex 0,
          .writeEra current_era, .writeMagic expected_magic])
  else if td.era ≠ current_era then
    let g := byztime_stamp_add real_time td.real_offset
    if g.2 then .error .Overflow else
    let off := byztime_stamp_sub g.1 local_time
    if off.2 then .error .Overflow else
    let entry : TimedataEntry := ⟨off.1, ⟨i64max.tdiv 2, 0⟩, local_time⟩
    .ok ({ td with entries := td.entries.set 0 entry, i := 0,
                   era := current_era },
         [.writeEntry 0 entry, .writeIndex 0, .writeEra current_era])
  else
    .ok (td, [])

/-- A published entry's three stamps all have nanoseconds in `[0, 10^9)`,
the property `get_and_validate_entry` checks. -/
def entryNormalized (e : TimedataEntry) : Prop :=
  0 ≤ e.offset.nanoseconds ∧ e.offset.nanoseconds < billion ∧
  0 ≤ e.error.nanoseconds ∧ e.error.nanoseconds < billion ∧
  0 ≤ e.as_of.nanoseconds ∧ e.as_of.nanoseconds < billion

instance (e : TimedataEntry) : Decidable (entryNormalized e) := by
  unfold entryNormalized; infer_instance

/-- Whether an `Except` result is a success (proof helper). -/
def isOkE {ε α : Type} : Except ε α → Bool
  | .ok _ => true
  | .error _ => false

/-- Whether an `Except` result is specifically an `EraMismatch` failure
(proof helper). -/
def isEraErr {α : Type} : Except Err α → Bool
  | .error .EraMismatch => true
  | _ => false

/-- Proof helper relating a read result to the validated entry it was
computed from: a successful read must come from a successfully validated
entry and, when so related, satisfy the given estimate property. -/
def estFromEntry : Except Err GetResult → Except Err TimedataEntry → Bool
  | .ok r, .ok e => decide (r.est = e.offset)
  | .ok _, .error _ => false
  | .error _, _ => true

/-! ## Concrete scenarios from the specification -/

/-- A fully valid region holding the published entry
`offset = (5, 0), error = (0, 10^6), as_of = (200, 0)` at index 0
(spec section 8, scenario 2). -/
def regionStep : Timedata :=
  { magic := expected_magic, i := 0, era := List.replicate 16 0,
    real_offset := ⟨0, 0⟩,
    entries := (List.replicate 62 defaultEntry).set 0
      (⟨⟨5, 0⟩, ⟨0, 1000000⟩, ⟨200, 0⟩⟩ : TimedataEntry) }

/-- A freshly opened consumer context: default drift 250000 ppb, step
mode. -/
def ctxStep : Ctx :=
  { drift_ppb := 250000, min_rate_ppb := 0, max_rate_ppb := 0,
    prev_local_time := ⟨0, 0⟩, prev_offset := ⟨0, 0⟩,
    slew_mode := false, slew_have_prev := false }

/-- Slew scenario (spec section 8, scenario 5), first region: entry
`offset = (0, 0)` at index 0. -/
def slewRegion1 : Timedata :=
  { magic := expected_magic, i := 0, era := List.replicate 16 0,
    real_offset := ⟨0, 0⟩,
    entries := (List.replicate 62 defaultEntry).set 0
      (⟨⟨0, 0⟩, ⟨0, 0⟩, ⟨0, 0⟩⟩ : TimedataEntry) }

/-- Slew scenario, second region: the provider jumped the entry offset to
`(10, 0)`. -/
def slewRegion2 : Timedata :=
  { slewRegion1 with
    entries := (List.replicate 62 defaultEntry).set 0
      (⟨⟨10, 0⟩, ⟨0, 0⟩, ⟨0, 0⟩⟩ : TimedataEntry) }

/-- A consumer context in slew mode with `min_rate = 0`,
`max_rate = 10^9` and no prior read, as obtained by
`byztime_slew(ctx, 0, 1000000000, ...)` on a fresh context. -/
def slewCtx : Ctx :=
  { drift_ppb := 250000, min_rate_ppb := 0, max_rate_ppb := 1000000000,
    prev_local_time := ⟨0, 0⟩, prev_offset := ⟨0, 0⟩,
    slew_mode := true, slew_have_prev := false }

/-- An uninitialized (magic absent) region, with a nonzero `real_offset`
residue to make its zeroing observable. -/
def freshRegion : Timedata :=
  { magic := List.replicate 12 0, i := 0, era := List.replicate 16 0,
    real_offset := ⟨5, 5⟩,
    entries := List.replicate 62 defaultEntry }

/-- The current clock era in the fresh-init and era-mismatch scenarios. -/
def eraNew : List Nat := [1, 2, 3, 4, 5, 6, 7, 8, 9, 10, 11, 12, 13, 14, 15, 16]

/-- The entry first-time initialization writes at index 0 for
`local_time = (100, 0)`, `real_time = (1700000000, 0)`:
`offset = real - local`, sentinel error `(INT64_MAX >> 1, 0)`. -/
def freshEntry : TimedataEntry :=
  ⟨⟨1699999900, 0⟩, ⟨4611686018427387903, 0⟩, ⟨100, 0⟩⟩

/-- A well-formed region (valid magic, index, entry) whose stored era
differs from the current `eraNew`. -/
def regionEraStale : Timedata :=
  { regionStep with era := List.replicate 16 7 }

/-! ## Helper lemmas -/

/-- Setting then reading the same, in-bounds list position gives back the
written element. -/
theorem getD_set_self {α : Type} (l : List α) (n : Nat) (a d : α)
    (h : n < l.length) : (l.set n a).getD n d = a := by
  induction l generalizing n with
  | nil => simp at h
  | cons x xs ih =>
    cases n with
    | zero => rfl
    | succ m =>
      simp only [List.set_cons_succ, List.getD_cons_succ]
      exact ih m (by simpa using h)

/-! ## Claim theorems -/

/-- Claim C1: the spec (and the doc comment on `byztime_slew` in
byztime.h) state that in slew mode the emitted estimates satisfy
`min_rate * (l2 - l1) <= (g2 - g1) <= max_rate * (l2 - l1)`, and that with
`min_rate = 0`, `max_rate = 10^9`, a first read at local `(0,0)` of entry
offset `(0,0)` followed by a second read at local `(1,0)` of entry offset
`(10,0)` emits `est = (0,0)`.  The code instead scales
`global_time_since_prev` (not `local_time_since_prev`) by the rates, so
the clamp never engages and the second `byztime_get_global_time` call
emits the global estimate `(11,0)`: the increment `g2 - g1 = (11,0)`
strictly exceeds `max_rate * (l2 - l1) = scale((1,0), 10^9) = (1,0)`. -/
theorem slew_clamp_scales_global_not_local :
    (byztime_get_global_time slewCtx slewRegion1 (some ⟨0, 0⟩)).2 =
      .ok (⟨0, 0⟩, ⟨0, 0⟩, ⟨0, 0⟩) ∧
    (byztime_get_global_time
        (byztime_get_global_time slewCtx slewRegion1 (some ⟨0, 0⟩)).1
        slewRegion2 (some ⟨1, 0⟩)).2 =
      .ok (⟨10, 999500000⟩, ⟨11, 0⟩, ⟨11, 500000⟩) ∧
    byztime_stamp_scale ⟨1, 0⟩ 1000000000 = (⟨1, 0⟩, false) ∧
    byztime_stamp_cmp (byztime_stamp_sub ⟨11, 0⟩ ⟨0, 0⟩).1 ⟨1, 0⟩ = 1 := by
  decide

/-- Claim C2 counterexample: for the consumer scenario with
`drift_ppb = 250000` reading entry `(offset = (5,0), error = (0,10^6),
as_of = (200,0))` at local time `(201,0)`, the code does not return the
claimed `min = (4, 999998500)` triple. -/
theorem get_offset_scenario_min_ne_claimed :
    (byztime_get_offset ctxStep regionStep (some ⟨201, 0⟩)).2 ≠
      .ok (⟨4, 999998500⟩, ⟨5, 0⟩, ⟨5, 1500000⟩) := by
  decide

/-- Claim C2 (amended): in the same scenario the call computes
`age = (1,0)`, `scaled = scale((1,0), 500000) = (0, 500000)`,
`error_now = (0, 1500000)` and returns `min = (4, 998500000)`,
`est = (5, 0)`, `max = (5, 1500000)`. -/
theorem get_offset_scenario_exact :
    (byztime_get_offset ctxStep regionStep (some ⟨201, 0⟩)).2 =
      .ok (⟨4, 998500000⟩, ⟨5, 0⟩, ⟨5, 1500000⟩) ∧
    byztime_stamp_sub ⟨201, 0⟩ ⟨200, 0⟩ = (⟨1, 0⟩, false) ∧
    byztime_stamp_scale ⟨1, 0⟩ 500000 = (⟨0, 500000⟩, false) ∧
    byztime_stamp_add ⟨0, 1000000⟩ ⟨0, 500000⟩ = (⟨0, 1500000⟩, false) := by
  decide

/-- Claim C3 counterexample: first-time initialization stores the sentinel
error `(INT64_MAX >> 1, 0) = (2^62 - 1, 0)`, not `(2^62, 0)` as the claim
states. -/
theorem open_rw_fresh_sentinel_ne_pow62 :
    (byztime_open_rw_region freshRegion eraNew ⟨100, 0⟩
        ⟨1700000000, 0⟩).toOption.map
      (fun p => (p.1.entries.getD 0 defaultEntry).error) ≠
      some ⟨4611686018427387904, 0⟩ := by
  decide

/-- Claim C3 (amended): when `byztime_open_rw` finds an empty region
(magic absent), with `local_time = (100, 0)` and
`real_time = (1700000000, 0)`, first-time initialization leaves entry 0
with `offset = (1699999900, 0)`, `error = (INT64_MAX >> 1, 0) =
(2^62 - 1, 0)`, `as_of = (100, 0)`; `real_offset = (0, 0)`; index 0; the
expected era and magic stored, with the magic write last in the write
sequence. -/
theorem open_rw_fresh_init_exact :
    byztime_open_rw_region freshRegion eraNew ⟨100, 0⟩ ⟨1700000000, 0⟩ =
      .ok ({ magic := expected_magic, i := 0, era := eraNew,
             real_offset := ⟨0, 0⟩,
             entries := (List.replicate 62 defaultEntry).set 0 freshEntry },
           [.writeRealOffset ⟨0, 0⟩, .writeEntry 0 freshEntry, .writeIndex 0,
            .writeEra eraNew, .writeMagic expected_magic]) ∧
    freshEntry.error = ⟨i64max.tdiv 2, 0⟩ ∧
    ([InitWrite.writeRealOffset ⟨0, 0⟩, .writeEntry 0 freshEntry,
      .writeIndex 0, .writeEra eraNew,
      .writeMagic expected_magic].getLast?) =
      some (.writeMagic expected_magic) := by
  decide

/-- Claim C4 counterexample: `byztime_set_offset` copies its arguments
into the published entry verbatim, so publishing the non-normalized
offset `(0, -1)` leaves a published entry whose offset nanoseconds field
is `-1`, outside `[0, 10^9)`. -/
theorem set_offset_publishes_denormalized :
    (byztime_set_offset regionStep ⟨0, -1⟩ ⟨0, 0⟩ (some ⟨0, 0⟩)
        none).toOption.map
      (fun td => (td.entries.getD td.i.toNat defaultEntry).offset.nanoseconds) =
      some (-1) := by
  decide

/-- Claim C8 counterexample: on a well-formed region whose stored era
differs from the current one, `byztime_open_ro` does fail with
`EraMismatch`, but a consumer read over the same region succeeds: the
read path never checks the era. -/
theorem era_mismatch_not_checked_on_read :
    byztime_open_ro regionEraStale eraNew = .error .EraMismatch ∧
    (byztime_get_offset ctxStep regionEraStale (some ⟨201, 0⟩)).2 =
      .ok (⟨4, 998500000⟩, ⟨5, 0⟩, ⟨5, 1500000⟩) := by
  decide

/-- Every exit of `byztime_get_local_time_and_offset` either leaves the
context unchanged or reports success: the C function only assigns to the
context right before a successful return. -/
theorem get_lto_fst_or_ok (ctx : Ctx) (td : Timedata) (clock : Option Stamp) :
    (byztime_get_local_time_and_offset ctx td clock).1 = ctx ∨
    isOkE (byztime_get_local_time_and_offset ctx td clock).2 = true := by
  simp only [byztime_get_local_time_and_offset]
  repeat' split
  all_goals first
    | exact Or.inl rfl
    | exact Or.inr rfl

/-- When `byztime_get_local_time_and_offset` fails, it returns the
context unchanged. -/
theorem get_lto_error_preserves (ctx : Ctx) (td : Timedata)
    (clock : Option Stamp) (e : Err)
    (h : (byztime_get_local_time_and_offset ctx td clock).2 = .error e) :
    (byztime_get_local_time_and_offset ctx td clock).1 = ctx := by
  rcases get_lto_fst_or_ok ctx td clock with hc | hok
  · exact hc
  · rw [h] at hok
    exact absurd hok (by simp [isOkE])

/-- `byztime_get_offset` passes through the context computed by
`byztime_get_local_time_and_offset`. -/
theorem get_offset_fst (ctx : Ctx) (td : Timedata) (clock : Option Stamp) :
    (byztime_get_offset ctx td clock).1 =
      (byztime_get_local_time_and_offset ctx td clock).1 := by
  unfold byztime_get_offset
  cases hq : byztime_get_local_time_and_offset ctx td clock with
  | mk c r => cases r <;> rfl

/-- `byztime_get_offset` fails exactly when
`byztime_get_local_time_and_offset` does, with the same error. -/
theorem get_offset_error_iff (ctx : Ctx) (td : Timedata)
    (clock : Option Stamp) (e : Err) :
    (byztime_get_offset ctx td clock).2 = .error e ↔
      (byztime_get_local_time_and_offset ctx td clock).2 = .error e := by
  unfold byztime_get_offset
  cases hq : byztime_get_local_time_and_offset ctx td clock with
  | mk c r => cases r <;> simp

/-- Claim C10: whenever `byztime_get_offset` returns failure
(ProtocolError, Overflow, or clock failure), the context — drift setting,
mode flag, `slew_have_prev`, `prev_local_time`, `prev_offset` — is exactly
as it was before the call; the slew history advances only on a successful
read. -/
theorem get_offset_failure_preserves_ctx (ctx : Ctx) (td : Timedata)
    (clock : Option Stamp) (e : Err)
    (h : (byztime_get_offset ctx td clock).2 = .error e) :
    (byztime_get_offset ctx td clock).1 = ctx := by
  rw [get_offset_fst]
  exact get_lto_error_preserves ctx td clock e
    ((get_offset_error_iff ctx td clock e).mp h)

/-- Claim C10 witness: a context whose drift of `2^62` makes the doubled
drift overflow int64; the call fails with Overflow and the context is
returned unchanged. -/
theorem get_offset_failure_preserves_ctx_witness :
    (byztime_get_offset { ctxStep with drift_ppb := 4611686018427387904 }
        regionStep (some ⟨201, 0⟩)).2 = .error .Overflow ∧
    (byztime_get_offset { ctxStep with drift_ppb := 4611686018427387904 }
        regionStep (some ⟨201, 0⟩)).1 =
      { ctxStep with drift_ppb := 4611686018427387904 } :=
  ⟨by decide,
   get_offset_failure_preserves_ctx _ regionStep (some ⟨201, 0⟩) .Overflow
     (by decide)⟩

/-- Claim C6: the consumer read path (used by `byztime_get_offset`,
`byztime_get_global_time` and `byztime_slew`) fails with ProtocolError if
and only if (absent a page fault, which has no sequential semantics) the
region's stored index is outside `[0, 62)` or at least one of the
selected entry's three nanoseconds fields lies outside `[0, 10^9)`;
otherwise it returns the copied entry. -/
theorem read_path_protocol_error_iff (td : Timedata) :
    (get_and_validate_entry td = .error .ProtocolError ↔
      ¬(0 ≤ td.i ∧ td.i < NUM_ENTRIES ∧
        entryNormalized (td.entries.getD td.i.toNat defaultEntry))) ∧
    ((0 ≤ td.i ∧ td.i < NUM_ENTRIES ∧
        entryNormalized (td.entries.getD td.i.toNat defaultEntry)) →
      get_and_validate_entry td = .ok (td.entries.getD td.i.toNat defaultEntry)) := by
  simp only [get_and_validate_entry, entryNormalized, NUM_ENTRIES, billion]
  by_cases h1 : td.i < 0 ∨ (62 : Int) ≤ td.i
  · rw [if_pos h1]
    constructor
    · simp only [true_iff]
      intro hv
      rcases hv with ⟨hv1, hv2, _⟩
      omega
    · intro hv
      exfalso
      rcases hv with ⟨hv1, hv2, _⟩
      omega
  · rw [if_neg h1]
    by_cases h2 : (td.entries.getD td.i.toNat defaultEntry).offset.nanoseconds < 0 ∨
        (1000000000 : Int) ≤ (td.entries.getD td.i.toNat defaultEntry).offset.nanoseconds ∨
        (td.entries.getD td.i.toNat defaultEntry).error.nanoseconds < 0 ∨
        (1000000000 : Int) ≤ (td.entries.getD td.i.toNat defaultEntry).error.nanoseconds ∨
        (td.entries.getD td.i.toNat defaultEntry).as_of.nanoseconds < 0 ∨
        (1000000000 : Int) ≤ (td.entries.getD td.i.toNat defaultEntry).as_of.nanoseconds
    · rw [if_pos h2]
      constructor
      · simp only [true_iff]
        intro hv
        rcases hv with ⟨_, _, hv3⟩
        omega
      · intro hv
        exfalso
        rcases hv with ⟨_, _, hv3⟩
        omega
    · rw [if_neg h2]
      constructor
      · constructor
        · intro hcon
          exact absurd hcon (by simp)
        · intro hv
          exfalso
          apply hv
          refine ⟨by omega, by omega, ?_⟩
          push_neg at h2
          exact ⟨by omega, by omega, by omega, by omega, by omega, by omega⟩
      · intro _
        rfl

/-- Claim C6 witness: on the concrete valid region `regionStep` the
validity conditions hold and the read path returns the stored entry. -/
theorem read_path_protocol_error_iff_witness :
    get_and_validate_entry regionStep =
      .ok (regionStep.entries.getD regionStep.i.toNat defaultEntry) :=
  (read_path_protocol_error_iff regionStep).2 (by decide)

/-- What `byztime_set_offset` publishes: on a region with a well-formed
index, the new entry is the argument triple verbatim, stored at the
advanced index `(i + 1) % 62`, and nothing else in the region changes. -/
theorem set_offset_publishes (td : Timedata) (off err aso : Stamp)
    (clk : Option Stamp)
    (hlen : td.entries.length = 62) (hi : 0 ≤ td.i ∧ td.i < NUM_ENTRIES) :
    ∃ td', byztime_set_offset td off err (some aso) clk = .ok td' ∧
      td'.i = (td.i + 1) % 62 ∧
      td'.magic = td.magic ∧ td'.era = td.era ∧
      td'.real_offset = td.real_offset ∧
      td'.entries.length = 62 ∧
      td'.entries.getD td'.i.toNat defaultEntry = ⟨off, err, aso⟩ := by
  unfold NUM_ENTRIES at hi
  have hidx : (if td.i + 1 = NUM_ENTRIES then 0 else td.i + 1) =
      (td.i + 1) % 62 := by
    unfold NUM_ENTRIES
    split <;> omega
  refine ⟨{ td with
      entries := td.entries.set ((td.i + 1) % 62).toNat ⟨off, err, aso⟩,
      i := (td.i + 1) % 62 }, ?_, rfl, rfl, rfl, rfl, ?_, ?_⟩
  · simp only [byztime_set_offset]
    rw [hidx]
  · simp only [List.length_set, hlen]
  · exact getD_set_self _ _ _ _ (by rw [hlen]; omega)

/-- Claim C5: on a valid region (index in `[0, 62)`),
`byztime_set_offset` with normalized stamps writes the entry into slot
`(i + 1) mod 62` and advances the index to `(i + 1) mod 62`; a subsequent
consumer read returns exactly that `(offset, error, as_of)` triple. -/
theorem set_offset_roundtrip (td : Timedata) (off err aso : Stamp)
    (clk : Option Stamp)
    (hlen : td.entries.length = 62) (hi : 0 ≤ td.i ∧ td.i < NUM_ENTRIES)
    (hoff : 0 ≤ off.nanoseconds ∧ off.nanoseconds < billion)
    (herr : 0 ≤ err.nanoseconds ∧ err.nanoseconds < billion)
    (haso : 0 ≤ aso.nanoseconds ∧ aso.nanoseconds < billion) :
    ∃ td', byztime_set_offset td off err (some aso) clk = .ok td' ∧
      td'.i = (td.i + 1) % 62 ∧
      td'.entries.getD td'.i.toNat defaultEntry = ⟨off, err, aso⟩ ∧
      get_and_validate_entry td' = .ok ⟨off, err, aso⟩ := by
  obtain ⟨td', h1, h2, _, _, _, h6, h7⟩ :=
    set_offset_publishes td off err aso clk hlen hi
  refine ⟨td', h1, h2, h7, ?_⟩
  unfold NUM_ENTRIES at hi
  simp only [get_and_validate_entry, NUM_ENTRIES]
  rw [if_neg (by omega), h7,
    if_neg (by
      simp only [billion] at hoff herr haso
      unfold billion
      simp only
      omega)]

/-- Claim C5 witness: publishing `(offset = (5,0), error = (0,10^6),
as_of = (200,0))` on the valid region `slewRegion1` (index 0) lands in
slot 1 with index 1, and the subsequent read returns exactly that
triple. -/
theorem set_offset_roundtrip_witness :
    ∃ td', byztime_set_offset slewRegion1 ⟨5, 0⟩ ⟨0, 1000000⟩
        (some ⟨200, 0⟩) none = .ok td' ∧
      td'.i = (slewRegion1.i + 1) % 62 ∧
      td'.entries.getD td'.i.toNat defaultEntry =
        ⟨⟨5, 0⟩, ⟨0, 1000000⟩, ⟨200, 0⟩⟩ ∧
      get_and_validate_entry td' = .ok ⟨⟨5, 0⟩, ⟨0, 1000000⟩, ⟨200, 0⟩⟩ :=
  set_offset_roundtrip slewRegion1 ⟨5, 0⟩ ⟨0, 1000000⟩ ⟨200, 0⟩ none
    (by decide) (by decide) (by decide) (by decide) (by decide)

/-- Claim C4 (amended): `byztime_set_offset` publishes the argument
stamps verbatim, so when the arguments are normalized the published
entry's three nanoseconds fields are in `[0, 10^9)`; for arbitrary
arguments this fails (see the counterexample). -/
theorem set_offset_normalized_args_normalized_entry (td : Timedata)
    (off err aso : Stamp) (clk : Option Stamp)
    (hlen : td.entries.length = 62) (hi : 0 ≤ td.i ∧ td.i < NUM_ENTRIES)
    (hoff : 0 ≤ off.nanoseconds ∧ off.nanoseconds < billion)
    (herr : 0 ≤ err.nanoseconds ∧ err.nanoseconds < billion)
    (haso : 0 ≤ aso.nanoseconds ∧ aso.nanoseconds < billion) :
    ∃ td', byztime_set_offset td off err (some aso) clk = .ok td' ∧
      entryNormalized (td'.entries.getD td'.i.toNat defaultEntry) := by
  obtain ⟨td', h1, _, _, _, _, _, h7⟩ :=
    set_offset_publishes td off err aso clk hlen hi
  refine ⟨td', h1, ?_⟩
  rw [h7]
  exact ⟨hoff.1, hoff.2, herr.1, herr.2, haso.1, haso.2⟩

/-- Claim C4 witness: publishing normalized stamps on `slewRegion1`
yields a published entry with all nanoseconds fields in range. -/
theorem set_offset_normalized_args_witness :
    ∃ td', byztime_set_offset slewRegion1 ⟨7, 5⟩ ⟨0, 3⟩ (some ⟨9, 1⟩)
        none = .ok td' ∧
      entryNormalized (td'.entries.getD td'.i.toNat defaultEntry) :=
  set_offset_normalized_args_normalized_entry slewRegion1 ⟨7, 5⟩ ⟨0, 3⟩
    ⟨9, 1⟩ none (by decide) (by decide) (by decide) (by decide) (by decide)

/-- In step mode, or in slew mode with no recorded previous read, a
successful `byztime_get_local_time_and_offset` emits the raw offset of
the entry it validated. -/
theorem get_lto_no_prev_emits_raw (ctx : Ctx) (td : Timedata)
    (clock : Option Stamp) (hp : ctx.slew_have_prev = false) :
    estFromEntry (byztime_get_local_time_and_offset ctx td clock).2
      (get_and_validate_entry td) = true := by
  simp only [byztime_get_local_time_and_offset, hp, Bool.false_eq_true,
    if_false]
  repeat' split
  all_goals first
    | rfl
    | simp_all [estFromEntry]

/-- Claim C7: if `byztime_slew(min_rate, max_rate, maxerror)` is called
with non-NULL `maxerror` and the freshly read entry has
`error > maxerror`, it fails with OutOfRange and the context (mode and
slew state included) is unchanged; otherwise (maxerror NULL or
`error <= maxerror`, entry readable) it succeeds and enters slew mode
with no previous read recorded, so the next successful read emits the raw
entry offset. -/
theorem slew_gate_and_reset (ctx : Ctx) (td : Timedata)
    (mn mx : Int) (entry : TimedataEntry)
    (h : get_and_validate_entry td = .ok entry) :
    (∀ me, byztime_stamp_cmp entry.error me > 0 →
      byztime_slew ctx td mn mx (some me) = (ctx, .error .OutOfRange)) ∧
    (∀ me, ¬(byztime_stamp_cmp entry.error me > 0) →
      byztime_slew ctx td mn mx (some me) = (enterSlew ctx mn mx, .ok ())) ∧
    byztime_slew ctx td mn mx none = (enterSlew ctx mn mx, .ok ()) ∧
    (enterSlew ctx mn mx).slew_mode = true ∧
    (enterSlew ctx mn mx).slew_have_prev = false ∧
    (enterSlew ctx mn mx).min_rate_ppb = mn ∧
    (enterSlew ctx mn mx).max_rate_ppb = mx ∧
    (∀ td2 clk r e2,
      (byztime_get_local_time_and_offset (enterSlew ctx mn mx) td2 clk).2 =
        .ok r →
      get_and_validate_entry td2 = .ok e2 → r.est = e2.offset) := by
  refine ⟨?_, ?_, ?_, rfl, rfl, rfl, rfl, ?_⟩
  · intro me hme
    simp only [byztime_slew, h]
    rw [if_pos (by simpa using hme)]
  · intro me hme
    simp only [byztime_slew, h]
    rw [if_neg (by simpa using hme)]
  · simp only [byztime_slew, h]
    rfl
  · intro td2 clk r e2 hr he2
    have hb := get_lto_no_prev_emits_raw (enterSlew ctx mn mx) td2 clk rfl
    rw [hr, he2] at hb
    simpa [estFromEntry] using hb

/-- Claim C7 witness: on `regionStep` (entry error `(0, 10^6)`), a slew
call with `maxerror = (0, 0)` fails with OutOfRange leaving the context
unchanged, while `maxerror = (1, 0)` succeeds and enters slew mode. -/
theorem slew_gate_and_reset_witness :
    byztime_slew ctxStep regionStep 0 1000000000 (some ⟨0, 0⟩) =
      (ctxStep, .error .OutOfRange) ∧
    byztime_slew ctxStep regionStep 0 1000000000 (some ⟨1, 0⟩) =
      (enterSlew ctxStep 0 1000000000, .ok ()) :=
  ⟨(slew_gate_and_reset ctxStep regionStep 0 1000000000
      ⟨⟨5, 0⟩, ⟨0, 1000000⟩, ⟨200, 0⟩⟩ (by decide)).1 ⟨0, 0⟩ (by decide),
   (slew_gate_and_reset ctxStep regionStep 0 1000000000
      ⟨⟨5, 0⟩, ⟨0, 1000000⟩, ⟨200, 0⟩⟩ (by decide)).2.1 ⟨1, 0⟩ (by decide)⟩

/-- The entry-validation path only ever fails with ProtocolError, never
EraMismatch. -/
theorem gve_isEraErr_false (td : Timedata) :
    isEraErr (get_and_validate_entry td) = false := by
  simp only [get_and_validate_entry]
  repeat' split
  all_goals rfl

/-- The min/max computation only ever fails with Overflow, never
EraMismatch. -/
theorem minmax_isEraErr_false (d : Int) (entry : TimedataEntry) (t : Stamp) :
    isEraErr (minMaxFromEntry d entry t) = false := by
  simp only [minMaxFromEntry]
  repeat' split
  all_goals rfl

/-- The slew clamp only ever fails with Overflow, never EraMismatch. -/
theorem slewClamp_isEraErr_false (ctx : Ctx) (entry : TimedataEntry)
    (t : Stamp) : isEraErr (slewClampEst ctx entry t) = false := by
  simp only [slewClampEst]
  repeat' split
  all_goals rfl

/-- The estimate step (clamped or raw) never fails with EraMismatch. -/
theorem estStep_isEraErr_false (ctx : Ctx) (entry : TimedataEntry)
    (t : Stamp) :
    isEraErr (if ctx.slew_have_prev then slewClampEst ctx entry t
      else .ok entry.offset) = false := by
  split
  · exact slewClamp_isEraErr_false ctx entry t
  · rfl

/-- An error result of a computation that never reports EraMismatch
carries an error value other than EraMismatch. -/
theorem errNotEra_of_isEraErr_false {α : Type} (x : Except Err α)
    (h : isEraErr x = false) (e : Err) (he : x = .error e) :
    e ≠ .EraMismatch := by
  subst he
  intro hcon
  subst hcon
  simp [isEraErr] at h

/-- Re-wrapping a non-EraMismatch error value at any result type stays
non-EraMismatch. -/
theorem isEraErr_error_of_ne {α : Type} (e : Err) (h : e ≠ .EraMismatch) :
    isEraErr (Except.error e : Except Err α) = false := by
  cases e
  all_goals first
    | rfl
    | exact absurd rfl h

/-- The consumer read path never reports EraMismatch: the era is checked
only by `byztime_open_ro`. -/
theorem get_lto_isEraErr_false (ctx : Ctx) (td : Timedata)
    (clock : Option Stamp) :
    isEraErr (byztime_get_local_time_and_offset ctx td clock).2 = false := by
  simp only [byztime_get_local_time_and_offset]
  repeat' split
  all_goals first
    | rfl
    | (rename_i heq
       exact isEraErr_error_of_ne _
         (errNotEra_of_isEraErr_false _ (gve_isEraErr_false td) _ heq))
    | (rename_i heq
       exact isEraErr_error_of_ne _
         (errNotEra_of_isEraErr_false _ (minmax_isEraErr_false _ _ _) _ heq))
    | (rename_i heq
       exact isEraErr_error_of_ne _
         (errNotEra_of_isEraErr_false _ (estStep_isEraErr_false _ _ _) _ heq))

/-- Claim C8 (amended): when the stored era differs from the current
`clock_era()`, `byztime_open_ro` fails with EraMismatch; consumer reads,
however, never re-check the era: `byztime_get_offset` cannot return
EraMismatch on any region whatsoever (it validates only the index and the
entry stamps). -/
theorem open_ro_era_mismatch_reads_unchecked (td : Timedata)
    (cur : List Nat) (hm : td.magic = expected_magic) (he : td.era ≠ cur) :
    byztime_open_ro td cur = .error .EraMismatch ∧
    (∀ ctx td2 clk, (byztime_get_offset ctx td2 clk).2 ≠
      .error .EraMismatch) := by
  constructor
  · unfold byztime_open_ro
    rw [if_neg (fun hh => hh hm), if_pos he]
  · intro ctx td2 clk hcon
    have h2 := (get_offset_error_iff ctx td2 clk .EraMismatch).mp hcon
    have h3 := get_lto_isEraErr_false ctx td2 clk
    rw [h2] at h3
    exact absurd h3 (by simp [isEraErr])

/-- Claim C8 witness: the stale-era region triggers EraMismatch at open,
and the read on it (which succeeds) indeed does not produce
EraMismatch. -/
theorem open_ro_era_mismatch_witness :
    byztime_open_ro regionEraStale eraNew = .error .EraMismatch ∧
    (byztime_get_offset ctxStep regionEraStale (some ⟨201, 0⟩)).2 ≠
      .error .EraMismatch :=
  ⟨(open_ro_era_mismatch_reads_unchecked regionEraStale eraNew (by decide)
      (by decide)).1,
   (open_ro_era_mismatch_reads_unchecked regionEraStale eraNew (by decide)
      (by decide)).2 ctxStep regionEraStale (some ⟨201, 0⟩)⟩

/-- Both disjuncts of a false Bool-or are false. -/
theorem bool_or_false {a b : Bool} (h : (a || b) = false) :
    a = false ∧ b = false := by
  cases a <;> cases b <;> simp_all

/-- Two's complement wrap-around is the identity exactly on the int64
range. -/
theorem wrap64_eq_self_iff (x : Int) :
    wrap64 x = x ↔
      -9223372036854775808 ≤ x ∧ x ≤ 9223372036854775807 := by
  unfold wrap64
  omega

/-- A non-overflowing checked addition computes the exact sum, which lies
in the int64 range. -/
theorem addOv_false_spec (a b : Int) (h : (addOv a b).2 = false) :
    (addOv a b).1 = a + b ∧
    -9223372036854775808 ≤ a + b ∧ a + b ≤ 9223372036854775807 := by
  have h2 : wrap64 (a + b) = a + b := by
    unfold addOv at h
    simpa using h
  exact ⟨by unfold addOv; simpa using h2, (wrap64_eq_self_iff _).mp h2⟩

/-- A non-overflowing checked subtraction computes the exact difference,
which lies in the int64 range. -/
theorem subOv_false_spec (a b : Int) (h : (subOv a b).2 = false) :
    (subOv a b).1 = a - b ∧
    -9223372036854775808 ≤ a - b ∧ a - b ≤ 9223372036854775807 := by
  have h2 : wrap64 (a - b) = a - b := by
    unfold subOv at h
    simpa using h
  exact ⟨by unfold subOv; simpa using h2, (wrap64_eq_self_iff _).mp h2⟩

/-- Truncating division by one billion together with its remainder
recomposes the dividend. -/
theorem tmod_billion_decomp (a : Int) :
    1000000000 * a.tdiv 1000000000 + a.tmod 1000000000 = a :=
  Int.tdiv_add_tmod a 1000000000

/-- Range and sign facts for the truncating remainder by one billion:
it lies strictly between `-10^9` and `10^9` and has the dividend's
sign. -/
theorem tmod_billion_range (a : Int) :
    -1000000000 < a.tmod 1000000000 ∧ a.tmod 1000000000 < 1000000000 ∧
    (0 ≤ a → 0 ≤ a.tmod 1000000000) ∧ (a < 0 → a.tmod 1000000000 ≤ 0) := by
  rcases le_or_lt 0 a with ha | ha
  · have h1 : 0 ≤ a.tmod 1000000000 := Int.tmod_nonneg 1000000000 ha
    have h2 : a.tmod 1000000000 < 1000000000 :=
      Int.tmod_lt_of_pos a (by norm_num)
    exact ⟨by omega, h2, fun _ => h1, fun hc => by omega⟩
  · have h4 : (-a).tmod 1000000000 = -(a.tmod 1000000000) := by
      rw [Int.tmod_def, Int.tmod_def, Int.neg_tdiv]
      ring
    have h5 : 0 ≤ (-a).tmod 1000000000 :=
      Int.tmod_nonneg 1000000000 (by omega)
    have h6 : (-a).tmod 1000000000 < 1000000000 :=
      Int.tmod_lt_of_pos (-a) (by norm_num)
    exact ⟨by omega, by omega, fun hc => by omega, fun _ => by omega⟩

/-- Characterization of truncating division and remainder by one billion
from a decomposition with the right range and sign. -/
theorem tdiv_tmod_billion_char (a q r : Int) (hq : a = 1000000000 * q + r)
    (hpos : 0 ≤ a → 0 ≤ r ∧ r < 1000000000)
    (hneg : a < 0 → -1000000000 < r ∧ r ≤ 0) :
    a.tdiv 1000000000 = q ∧ a.tmod 1000000000 = r := by
  rcases le_or_lt 0 a with ha | ha
  · have h1 : a.tdiv 1000000000 = a / 1000000000 :=
      Int.tdiv_eq_ediv ha (by norm_num)
    have h2 : a.tmod 1000000000 = a % 1000000000 :=
      Int.tmod_eq_emod ha (by norm_num)
    obtain ⟨hr0, hrb⟩ := hpos ha
    rw [h1, h2]
    omega
  · have hna : (0 : Int) ≤ -a := by omega
    have h1 : (-a).tdiv 1000000000 = (-a) / 1000000000 :=
      Int.tdiv_eq_ediv hna (by norm_num)
    have h2 : (-a).tmod 1000000000 = (-a) % 1000000000 :=
      Int.tmod_eq_emod hna (by norm_num)
    have h3 : a.tdiv 1000000000 = -((-a).tdiv 1000000000) := by
      rw [Int.neg_tdiv, neg_neg]
    have h4 : (-a).tmod 1000000000 = -(a.tmod 1000000000) := by
      rw [Int.tmod_def, Int.tmod_def, Int.neg_tdiv]
      ring
    obtain ⟨hr1, hr2⟩ := hneg ha
    constructor
    · rw [h3, h1]
      omega
    · have h5 : a.tmod 1000000000 = -((-a) % 1000000000) := by
        rw [← h2]
        omega
      rw [h5]
      omega

/-- A zero attosecond residue triggers no rounding adjustment. -/
theorem roundAdjust_zero (x : Int) : roundAdjust 0 x = x := by
  unfold roundAdjust
  rw [if_neg (by omega), if_neg (by omega)]

/-- When normalization reports no overflow on an int64-representable
stamp, the normalized stamp has an in-range seconds field and a
nanoseconds field in `[0, 10^9)`. -/
theorem normalize_ok_bounds (s : Stamp) (h64 : s.repr64)
    (h : (byztime_stamp_normalize s).2 = false) :
    -9223372036854775808 ≤ (byztime_stamp_normalize s).1.seconds ∧
    (byztime_stamp_normalize s).1.seconds ≤ 9223372036854775807 ∧
    0 ≤ (byztime_stamp_normalize s).1.nanoseconds ∧
    (byztime_stamp_normalize s).1.nanoseconds < 1000000000 := by
  unfold Stamp.repr64 i64min i64max at h64
  obtain ⟨ha1, ha2, hb1, hb2⟩ := h64
  obtain ⟨hr1, hr2, hrpos, hrneg⟩ := tmod_billion_range s.nanoseconds
  revert h
  unfold byztime_stamp_normalize
  simp only [billion]
  by_cases hfast : 0 ≤ s.nanoseconds ∧ s.nanoseconds < 1000000000
  · rw [if_pos hfast]
    intro _
    exact ⟨ha1, ha2, hfast.1, hfast.2⟩
  · rw [if_neg hfast]
    by_cases hneg : s.nanoseconds.tmod 1000000000 < 0
    · rw [if_pos hneg]
      intro h
      dsimp only at h ⊢
      obtain ⟨hfa, hfb⟩ := bool_or_false h
      obtain ⟨he1, hl1, hl2⟩ := addOv_false_spec _ _ hfa
      obtain ⟨he2, hl3, hl4⟩ := subOv_false_spec _ _ hfb
      rw [he2, he1]
      omega
    · rw [if_neg hneg]
      intro h
      dsimp only at h ⊢
      obtain ⟨he1, hl1, hl2⟩ := addOv_false_spec _ _ h
      rw [he1]
      omega

/-- Normalizing the recomposition
`(q * 10^9, r * 10^9 + n)` of an in-range stamp `(a, n)` with
`q = a tdiv 10^9`, `r = a tmod 10^9` restores `(a, n)` exactly. -/
theorem normalize_restore (a n : Int) (hn0 : 0 ≤ n) (hn1 : n < 1000000000)
    (ha0 : -9223372036854775808 ≤ a) (ha1 : a ≤ 9223372036854775807) :
    (byztime_stamp_normalize
      ⟨a.tdiv 1000000000 * 1000000000,
       a.tmod 1000000000 * 1000000000 + n⟩).1 = ⟨a, n⟩ := by
  have hdec := tmod_billion_decomp a
  obtain ⟨hr1, hr2, hrpos, hrneg⟩ := tmod_billion_range a
  unfold byztime_stamp_normalize
  simp only [billion]
  by_cases hfast : 0 ≤ a.tmod 1000000000 * 1000000000 + n ∧
      a.tmod 1000000000 * 1000000000 + n < 1000000000
  · rw [if_pos hfast]
    dsimp only
    have hr0 : a.tmod 1000000000 = 0 := by omega
    simp only [Stamp.mk.injEq]
    omega
  · rw [if_neg hfast]
    rcases lt_trichotomy (a.tmod 1000000000) 0 with hrs | hrs | hrs
    · rcases eq_or_lt_of_le hn0 with hn | hn
      · have hchar := tdiv_tmod_billion_char
          (a.tmod 1000000000 * 1000000000 + n) (a.tmod 1000000000) n
          (by ring) (fun hM => by omega) (fun hM => by omega)
        rw [hchar.1, hchar.2, if_neg (by omega)]
        dsimp only
        simp only [addOv]
        have he : a.tdiv 1000000000 * 1000000000 + a.tmod 1000000000 = a := by
          omega
        rw [he, (wrap64_eq_self_iff a).mpr (by omega)]
      · have hchar := tdiv_tmod_billion_char
          (a.tmod 1000000000 * 1000000000 + n) (a.tmod 1000000000 + 1)
          (n - 1000000000) (by ring) (fun hM => by omega) (fun hM => by omega)
        rw [hchar.1, hchar.2, if_pos (by omega)]
        dsimp only
        simp only [addOv, subOv]
        have he : a.tdiv 1000000000 * 1000000000 + (a.tmod 1000000000 + 1) =
            a + 1 := by omega
        rw [he, (wrap64_eq_self_iff (a + 1)).mpr (by omega)]
        have he2 : a + 1 - 1 = a := by ring
        have he3 : n - 1000000000 + 1000000000 = n := by omega
        rw [he2, (wrap64_eq_self_iff a).mpr (by omega), he3]
    · exact absurd ⟨by omega, by omega⟩ hfast
    · have hchar := tdiv_tmod_billion_char
        (a.tmod 1000000000 * 1000000000 + n) (a.tmod 1000000000) n
        (by ring) (fun hM => by omega) (fun hM => by omega)
      rw [hchar.1, hchar.2, if_neg (by omega)]
      dsimp only
      simp only [addOv]
      have he : a.tdiv 1000000000 * 1000000000 + a.tmod 1000000000 = a := by
        omega
      rw [he, (wrap64_eq_self_iff a).mpr (by omega)]

/-- `byztime_stamp_downscale` with `ppb = 10^9` is exactly normalization:
the attosecond residue is zero, so no rounding adjustment applies. -/
theorem downscale_billion (s : Stamp) (h64 : s.repr64)
    (h : (byztime_stamp_normalize s).2 = false) :
    byztime_stamp_downscale s billion =
      ((byztime_stamp_normalize s).1, false) := by
  obtain ⟨hb0, hb1, hb2, hb3⟩ := normalize_ok_bounds s h64 h
  unfold byztime_stamp_downscale
  simp only [billion]
  rw [h]
  have hchar := tdiv_tmod_billion_char
    ((byztime_stamp_normalize s).1.nanoseconds * 1000000000)
    (byztime_stamp_normalize s).1.nanoseconds 0
    (by ring) (fun hM => by omega) (fun hM => by omega)
  rw [hchar.1, hchar.2, roundAdjust_zero]
  rw [normalize_restore (byztime_stamp_normalize s).1.seconds
    (byztime_stamp_normalize s).1.nanoseconds hb2 hb3 hb0 hb1]

/-- Claim C9: for every int64-representable stamp `s` whose
normalization does not overflow, `scale(s, 10^9)` returns exactly
`normalize(s)` — the attosecond residue is zero, so no rounding
adjustment is applied — and reports success. -/
theorem scale_billion_eq_normalize (s : Stamp) (h64 : s.repr64)
    (h : (byztime_stamp_normalize s).2 = false) :
    byztime_stamp_scale s billion = ((byztime_stamp_normalize s).1, false) := by
  unfold byztime_stamp_scale
  rw [if_pos ⟨by norm_num [billion], le_refl billion⟩]
  exact downscale_billion s h64 h

/-- Claim C9 witness: the denormalized stamp `(1, 2000000001)` (whose
normal form is `(3, 1)`) scales by `10^9` to its normal form with no
overflow reported. -/
theorem scale_billion_eq_normalize_witness :
    (⟨1, 2000000001⟩ : Stamp).repr64 ∧
    (byztime_stamp_normalize ⟨1, 2000000001⟩).2 = false ∧
    byztime_stamp_scale ⟨1, 2000000001⟩ billion =
      ((byztime_stamp_normalize ⟨1, 2000000001⟩).1, false) :=
  ⟨by decide, by decide,
   scale_billion_eq_normalize ⟨1, 2000000001⟩ (by decide) (by decide)⟩

end Byztime
